import Mathlib

/-!
Verification of the turtle mission-control system (Express/rclnodejs backend
`src/backend/src/index.js`, React frontend `src/frontend/src`).

The backend keeps a single in-memory mission (`currentMission`), a repeating
100 ms interval (`missionInterval`) that publishes steering commands via
`moveToPoint`, and a `/turtle1/pose` subscription whose callback advances the
mission by `shift()`-ing the head waypoint once the pose comes within 0.1 of
it.  The frontend contributes the pure path utilities `clampTurtlePoint` and
`filterPathPoints` (`src/frontend/src/utils.tsx`).

Real arithmetic of the JavaScript source is embedded over `ℝ`.
-/

namespace TurtleSim

open Real

/-- A 2D pose `{x, y, theta}` as carried in `turtlesim/msg/Pose` messages and
in `currentMission.currentPose`. -/
@[ext]
structure Pose where
  x : ℝ
  y : ℝ
  theta : ℝ

/-- A velocity command: the backend only ever sets `twist.linear.x` and
`twist.angular.z`; every other component is the constant 0. -/
@[ext]
structure Twist where
  linear : ℝ
  angular : ℝ

/-- JavaScript `Math.atan2(y, x)` over the reals (the signed zeros of IEEE
arithmetic collapse to the single real 0). -/
noncomputable def atan2 (y x : ℝ) : ℝ :=
  if 0 < x then arctan (y / x)
  else if x < 0 then
    (if 0 ≤ y then arctan (y / x) + π else arctan (y / x) - π)
  else if 0 < y then π / 2
  else if y < 0 then -(π / 2)
  else 0

/-- `normalizeAngle` from `src/backend/src/index.js`:
`Math.atan2(Math.sin(angle), Math.cos(angle))`. -/
noncomputable def normalizeAngle (angle : ℝ) : ℝ :=
  atan2 (Real.sin angle) (Real.cos angle)

/-- The heading error computed inside `moveToPoint`:
`normalizeAngle(atan2(dy, dx) - currentPose.theta)`. -/
noncomputable def headingError (pose : Pose) (point : ℝ × ℝ) : ℝ :=
  normalizeAngle (atan2 (point.2 - pose.y) (point.1 - pose.x) - pose.theta)

/-- The distance computed inside `moveToPoint`: `Math.sqrt(dx*dx + dy*dy)`. -/
noncomputable def distanceTo (pose : Pose) (point : ℝ × ℝ) : ℝ :=
  Real.sqrt ((point.1 - pose.x) * (point.1 - pose.x) +
    (point.2 - pose.y) * (point.2 - pose.y))

/-- The steering policy of `moveToPoint` (`src/backend/src/index.js:121-153`),
as the published twist.  The twist starts at all zeros; if
`|angleDifference| > 0.2` only the angular component is set, else if
`distance > 0.1` both are set, else the zero twist is published. -/
noncomputable def moveToPoint (pose : Pose) (point : ℝ × ℝ) : Twist :=
  if 0.2 < |headingError pose point| then
    ⟨0, Real.sign (headingError pose point) * min |headingError pose point| 1⟩
  else if 0.1 < distanceTo pose point then
    ⟨min 1 (distanceTo pose point),
      Real.sign (headingError pose point) * min |headingError pose point| 1⟩
  else ⟨0, 0⟩

/-- On `(-π, π]` the function `a ↦ atan2 (sin a) (cos a)` is the identity. -/
theorem atan2_sin_cos {b : ℝ} (hb1 : -π < b) (hb2 : b ≤ π) :
    atan2 (Real.sin b) (Real.cos b) = b := by
  have hpi : (0:ℝ) < π := Real.pi_pos
  by_cases h1 : b < π / 2
  · by_cases h2 : -(π / 2) < b
    · -- central branch: cos b > 0
      have hc : 0 < Real.cos b := Real.cos_pos_of_mem_Ioo ⟨h2, h1⟩
      rw [atan2, if_pos hc, ← Real.tan_eq_sin_div_cos, Real.arctan_tan h2 h1]
    · by_cases h3 : b = -(π / 2)
      · subst h3
        rw [atan2]
        rw [Real.cos_neg, Real.cos_pi_div_two, Real.sin_neg, Real.sin_pi_div_two]
        norm_num
      · -- -π < b < -(π/2): cos b < 0, sin b < 0
        have hble : b ≤ -(π / 2) := not_lt.mp h2
        have hblt : b < -(π / 2) := lt_of_le_of_ne hble h3
        have hc : Real.cos b < 0 := by
          rw [← Real.cos_neg]
          exact Real.cos_neg_of_pi_div_two_lt_of_lt (by linarith) (by linarith)
        have hs : Real.sin b < 0 :=
          Real.sin_neg_of_neg_of_neg_pi_lt (by linarith) hb1
        rw [atan2, if_neg (by linarith), if_pos hc, if_neg (not_le.mpr hs)]
        have htan : Real.sin b / Real.cos b = Real.tan (b + π) := by
          rw [Real.tan_periodic b, Real.tan_eq_sin_div_cos]
        rw [htan, Real.arctan_tan (by linarith) (by linarith)]
        ring
  · by_cases h3 : b = π / 2
    · subst h3
      rw [atan2, Real.cos_pi_div_two, Real.sin_pi_div_two]
      norm_num
    · have hbge : π / 2 < b := lt_of_le_of_ne (not_lt.mp h1) (Ne.symm h3)
      by_cases h4 : b = π
      · subst h4
        rw [atan2, Real.cos_pi, Real.sin_pi]
        norm_num
      · -- π/2 < b < π: cos b < 0, sin b > 0
        have hblt : b < π := lt_of_le_of_ne hb2 h4
        have hc : Real.cos b < 0 :=
          Real.cos_neg_of_pi_div_two_lt_of_lt hbge (by linarith)
        have hs : 0 < Real.sin b :=
          Real.sin_pos_of_pos_of_lt_pi (by linarith) hblt
        rw [atan2, if_neg (by linarith), if_pos hc, if_pos hs.le]
        have htan : Real.sin b / Real.cos b = Real.tan (b - π) := by
          rw [Real.tan_periodic.sub_eq b, Real.tan_eq_sin_div_cos]
        rw [htan, Real.arctan_tan (by linarith) (by linarith)]
        ring

/-- `normalizeAngle` is the identity on `(-π, π]`. -/
theorem normalizeAngle_of_mem {b : ℝ} (hb1 : -π < b) (hb2 : b ≤ π) :
    normalizeAngle b = b :=
  atan2_sin_cos hb1 hb2

/-- `normalizeAngle` lands in `(-π, π]` and differs from its input by an
integer multiple of `2π`. -/
theorem normalizeAngle_spec (a : ℝ) :
    normalizeAngle a ∈ Set.Ioc (-π) π ∧
      ∃ k : ℤ, a - normalizeAngle a = k * (2 * π) := by
  have hp : (0:ℝ) < 2 * π := Real.two_pi_pos
  have hmem : toIocMod hp (-π) a ∈ Set.Ioc (-π) (-π + 2 * π) :=
    toIocMod_mem_Ioc hp (-π) a
  have hpi : -π + 2 * π = π := by ring
  rw [hpi] at hmem
  have hk : a - toIocMod hp (-π) a = toIocDiv hp (-π) a • (2 * π) :=
    self_sub_toIocMod hp (-π) a
  rw [zsmul_eq_mul] at hk
  have ha : a = toIocMod hp (-π) a + (toIocDiv hp (-π) a : ℤ) * (2 * π) := by
    linarith
  have hsin : Real.sin a = Real.sin (toIocMod hp (-π) a) := by
    conv_lhs => rw [ha]
    exact Real.sin_add_int_mul_two_pi _ _
  have hcos : Real.cos a = Real.cos (toIocMod hp (-π) a) := by
    conv_lhs => rw [ha]
    exact Real.cos_add_int_mul_two_pi _ _
  have hna : normalizeAngle a = toIocMod hp (-π) a := by
    rw [normalizeAngle, hsin, hcos]
    exact atan2_sin_cos hmem.1 hmem.2
  refine ⟨hna ▸ hmem, toIocDiv hp (-π) a, ?_⟩
  rw [hna]
  linarith

/-- `clampTurtlePoint` from `src/frontend/src/utils.tsx`:
`[Math.max(-10, Math.min(10, x)), Math.max(-10, Math.min(10, y)), z]`. -/
def clampTurtlePoint (p : ℝ × ℝ × ℝ) : ℝ × ℝ × ℝ :=
  (max (-10) (min 10 p.1), max (-10) (min 10 p.2.1), p.2.2)

/-- Modelled from the spec: the Pose Model's manual-velocity integration step
(§4.1 `applyManualVelocity`) lives in the external turtlesim simulator, not
under `src/`; per the spec it integrates
`x += linear*cos(theta); y += linear*sin(theta); theta += angular` and then
clamps `x, y` into the arena, the clamp being `clampTurtlePoint` from
`src/frontend/src/utils.tsx`. -/
noncomputable def applyManualVelocity (pose : Pose) (linear angular : ℝ) : Pose :=
  let c := clampTurtlePoint
    (pose.x + linear * Real.cos pose.theta, pose.y + linear * Real.sin pose.theta, 0)
  ⟨c.1, c.2.1, pose.theta + angular⟩

/-- JavaScript `Math.hypot(dx, dy)`. -/
noncomputable def hypot (dx dy : ℝ) : ℝ :=
  Real.sqrt (dx ^ 2 + dy ^ 2)

/-- The inner loop of `filterPathPoints`: `last` is the most recently kept
point (`filtered[filtered.length - 1]`); a point is kept exactly when its
planar distance from `last` is `>= minDist`. -/
noncomputable def filterAux (minDist : ℝ) (last : ℝ × ℝ × ℝ) :
    List (ℝ × ℝ × ℝ) → List (ℝ × ℝ × ℝ)
  | [] => []
  | q :: qs =>
    if minDist ≤ hypot (q.1 - last.1) (q.2.1 - last.2.1) then
      q :: filterAux minDist q qs
    else filterAux minDist last qs

/-- `filterPathPoints` from `src/frontend/src/utils.tsx` (the source's default
for `minDist` is 0.2): an empty input returns `[]`; otherwise the first point
is kept and the loop keeps each later point at distance `>= minDist` from the
last kept point. -/
noncomputable def filterPathPoints (points : List (ℝ × ℝ × ℝ)) (minDist : ℝ) :
    List (ℝ × ℝ × ℝ) :=
  match points with
  | [] => []
  | p :: rest => p :: filterAux minDist p rest

/-- The backend's in-memory `currentMission` object:
`{points: [...], currentPose: {x, y, theta}}`. -/
@[ext]
structure MissionSt where
  points : List (ℝ × ℝ)
  currentPose : Pose

/-- Events `io.emit`-ted by the mission lifecycle. -/
inductive Ev where
  | missionComplete
  | missionStopped
deriving DecidableEq

/-- The mutable module state of `src/backend/src/index.js`: the
`isROSInitialized` flag (standing for an initialized node with a live
`turtleVelPub`), the `currentMission` object, the `missionInterval` variable
(latest `setInterval` handle), the multiset of interval timers still armed
(`setInterval` handles not yet passed to `clearInterval`), the sequence of
twists published on `/turtle1/cmd_vel`, the emitted lifecycle events, and a
fresh-handle counter. -/
@[ext]
structure ServerState where
  isROSInitialized : Bool
  mission : Option MissionSt
  missionInterval : Option ℕ
  timers : List ℕ
  published : List Twist
  events : List Ev
  nextTimer : ℕ

/-- `turtleVelPub.publish(twist)`. -/
def publishTwist (s : ServerState) (t : Twist) : ServerState :=
  { s with published := s.published ++ [t] }

/-- The all-zero twist. -/
def zeroTwist : Twist := ⟨0, 0⟩

/-- `stopTurtle` (`src/backend/src/index.js:160-166`): publishes the zero
twist when the publisher exists. -/
def stopTurtle (s : ServerState) : ServerState :=
  if s.isROSInitialized then publishTwist s zeroTwist else s

/-- The `socket.on('turtleControl')` handler
(`src/backend/src/index.js:181-205`): when ROS is initialized it publishes
the received twist unconditionally — there is no mission-state check. -/
def handleTurtleControl (s : ServerState) (lin ang : ℝ) : ServerState :=
  if s.isROSInitialized then publishTwist s ⟨lin, ang⟩ else s

/-- The `socket.on('startMission')` handler
(`src/backend/src/index.js:207-230`).  `none` models a payload whose
`points` is not an array (`!Array.isArray(path.points)`), which is rejected;
otherwise `currentMission` is overwritten and a fresh interval armed, with no
check of any mission already running and no `clearInterval` of the previous
handle. -/
def handleStartMission (s : ServerState) (points : Option (List (ℝ × ℝ))) :
    ServerState :=
  match points with
  | none => s
  | some pts =>
    if s.isROSInitialized then
      { s with
        mission := some ⟨pts, ⟨0, 0, 0⟩⟩,
        missionInterval := some s.nextTimer,
        timers := s.timers ++ [s.nextTimer],
        nextTimer := s.nextTimer + 1 }
    else s

/-- `clearInterval(h)`: disarms the handle if armed; a no-op on `null` or an
already-cleared handle. -/
def eraseTimer (timers : List ℕ) (h : Option ℕ) : List ℕ :=
  match h with
  | none => timers
  | some t => timers.erase t

/-- The `socket.on('stopMission')` handler
(`src/backend/src/index.js:239-247`): clears the interval if the variable is
set, nulls `currentMission`, publishes a zero twist, emits `missionStopped`. -/
def handleStopMission (s : ServerState) : ServerState :=
  let s1 : ServerState :=
    match s.missionInterval with
    | some t => { s with timers := s.timers.erase t, missionInterval := none }
    | none => s
  let s2 := stopTurtle { s1 with mission := none }
  { s2 with events := s2.events ++ [Ev.missionStopped] }

/-- One firing of the `setInterval` callback armed by `startMission`
(`src/backend/src/index.js:224-228`): if a mission exists and has a pending
waypoint, `moveToPoint` computes and publishes a twist (`moveToPoint` itself
returns early when ROS is uninitialized). -/
noncomputable def missionTick (s : ServerState) : ServerState :=
  match s.mission with
  | none => s
  | some m =>
    match m.points with
    | [] => s
    | p :: _ =>
      if s.isROSInitialized then publishTwist s (moveToPoint m.currentPose p)
      else s

/-- The distance check of the pose callback:
`Math.sqrt(Math.pow(msg.x - p[0], 2) + Math.pow(msg.y - p[1], 2))`. -/
noncomputable def poseDist (msg : Pose) (p : ℝ × ℝ) : ℝ :=
  Real.sqrt ((msg.x - p.1) ^ 2 + (msg.y - p.2) ^ 2)

/-- The `/turtle1/pose` subscription callback
(`src/backend/src/index.js:61-97`): updates `currentMission.currentPose`,
then, if within 0.1 of the head waypoint, `shift()`s it; when the list
becomes empty it clears the interval (leaving the `missionInterval` variable
stale), nulls the mission, emits `missionComplete` and calls `stopTurtle`. -/
noncomputable def handlePose (s : ServerState) (msg : Pose) : ServerState :=
  match s.mission with
  | none => s
  | some m =>
    match m.points with
    | [] => { s with mission := some ⟨[], msg⟩ }
    | p :: rest =>
      if poseDist msg p < 0.1 then
        match rest with
        | [] =>
          stopTurtle
            { s with
              mission := none,
              timers := eraseTimer s.timers s.missionInterval,
              events := s.events ++ [Ev.missionComplete] }
        | q :: qs => { s with mission := some ⟨q :: qs, msg⟩ }
      else { s with mission := some ⟨p :: rest, msg⟩ }

/-! ## Helper lemmas -/

theorem atan2_zero_pos {x : ℝ} (hx : 0 < x) : atan2 0 x = 0 := by
  rw [atan2, if_pos hx, zero_div, Real.arctan_zero]

/-- Heading error toward a target due east of the pose. -/
theorem headingError_east (x y θ d : ℝ) (hd : 0 < d) :
    headingError ⟨x, y, θ⟩ (x + d, y) = normalizeAngle (-θ) := by
  show normalizeAngle (atan2 (y - y) (x + d - x) - θ) = normalizeAngle (-θ)
  rw [show y - y = 0 by ring, show x + d - x = d by ring, atan2_zero_pos hd,
    zero_sub]

/-- Distance to a target due east of the pose. -/
theorem distanceTo_east (x y θ d : ℝ) (hd : 0 ≤ d) :
    distanceTo ⟨x, y, θ⟩ (x + d, y) = d := by
  show Real.sqrt ((x + d - x) * (x + d - x) + (y - y) * (y - y)) = d
  rw [show (x + d - x) * (x + d - x) + (y - y) * (y - y) = d ^ 2 by ring,
    Real.sqrt_sq hd]

theorem headingError_inst1 : headingError ⟨0, 0, -(1/2)⟩ (5, 0) = 1/2 := by
  have h := headingError_east 0 0 (-(1/2)) 5 (by norm_num)
  rw [show (0:ℝ) + 5 = 5 by norm_num] at h
  rw [h, neg_neg]
  exact normalizeAngle_of_mem (by linarith [Real.pi_pos])
    (by linarith [Real.pi_gt_three])

theorem headingError_inst2 : headingError ⟨1, 1, -(1/2)⟩ (6, 1) = 1/2 := by
  have h := headingError_east 1 1 (-(1/2)) 5 (by norm_num)
  rw [show (1:ℝ) + 5 = 6 by norm_num] at h
  rw [h, neg_neg]
  exact normalizeAngle_of_mem (by linarith [Real.pi_pos])
    (by linarith [Real.pi_gt_three])

/-! ## Claim theorems -/

/-- C1.  Steering policy per tick: whenever `|headingError| > 0.2` the
emitted command is `⟨0, sign(e) * min(|e|, 1)⟩`; otherwise, whenever
`distance > 0.1`, it is `⟨min(1, distance), sign(e) * min(|e|, 1)⟩`; and at a
pose with heading error 0.5 rad and distance 5 (pose `(0,0,-1/2)`, target
`(5,0)`) the command is linear 0, angular 0.5.  Holds for every pose and
target. -/
theorem spec_c1 :
    (∀ (pose : Pose) (point : ℝ × ℝ),
      (0.2 < |headingError pose point| →
        moveToPoint pose point =
          ⟨0, Real.sign (headingError pose point) *
            min |headingError pose point| 1⟩) ∧
      (¬ 0.2 < |headingError pose point| → 0.1 < distanceTo pose point →
        moveToPoint pose point =
          ⟨min 1 (distanceTo pose point),
            Real.sign (headingError pose point) *
              min |headingError pose point| 1⟩)) ∧
    moveToPoint ⟨0, 0, -(1/2)⟩ (5, 0) = ⟨0, 1/2⟩ := by
  constructor
  · intro pose point
    constructor
    · intro h
      rw [moveToPoint, if_pos h]
    · intro h hd
      rw [moveToPoint, if_neg h, if_pos hd]
  · have habs : |(1/2 : ℝ)| = 1/2 := abs_of_pos (by norm_num)
    rw [moveToPoint, headingError_inst1, habs, if_pos (by norm_num : (0.2:ℝ) < 1/2),
      Real.sign_of_pos (by norm_num : (0:ℝ) < 1/2),
      min_eq_left (by norm_num : (1/2:ℝ) ≤ 1), one_mul]

/-- C1, witness: at a second concrete pose with heading error 0.5 and
distance 5, the rotate-in-place branch of the theorem yields the command
`⟨0, 1/2⟩`. -/
theorem spec_c1_witness : moveToPoint ⟨1, 1, -(1/2)⟩ (6, 1) = ⟨0, 1/2⟩ := by
  have habs : |(1/2 : ℝ)| = 1/2 := abs_of_pos (by norm_num)
  have h : (0.2:ℝ) < |headingError ⟨1, 1, -(1/2)⟩ (6, 1)| := by
    rw [headingError_inst2, habs]; norm_num
  have hmain := (spec_c1.1 ⟨1, 1, -(1/2)⟩ (6, 1)).1 h
  rw [hmain, headingError_inst2, habs,
    Real.sign_of_pos (by norm_num : (0:ℝ) < 1/2),
    min_eq_left (by norm_num : (1/2:ℝ) ≤ 1), one_mul]

/-- C9.  `normalizeAngle` maps every real angle into `(-π, π]`, differing
from its input by an integer multiple of `2π`; consequently every heading
error `normalizeAngle(bearing - theta)` lies in `(-π, π]`. -/
theorem spec_c9 :
    (∀ a : ℝ, normalizeAngle a ∈ Set.Ioc (-π) π ∧
      ∃ k : ℤ, a - normalizeAngle a = k * (2 * π)) ∧
    ∀ (pose : Pose) (point : ℝ × ℝ),
      headingError pose point ∈ Set.Ioc (-π) π :=
  ⟨normalizeAngle_spec, fun _ _ => (normalizeAngle_spec _).1⟩

theorem applyManualVelocity_x (pose : Pose) (l a : ℝ) :
    (applyManualVelocity pose l a).x =
      max (-10) (min 10 (pose.x + l * Real.cos pose.theta)) := rfl

theorem applyManualVelocity_y (pose : Pose) (l a : ℝ) :
    (applyManualVelocity pose l a).y =
      max (-10) (min 10 (pose.y + l * Real.sin pose.theta)) := rfl

theorem applyManualVelocity_mem_arena (pose : Pose) (l a : ℝ) :
    -10 ≤ (applyManualVelocity pose l a).x ∧
      (applyManualVelocity pose l a).x ≤ 10 ∧
      -10 ≤ (applyManualVelocity pose l a).y ∧
      (applyManualVelocity pose l a).y ≤ 10 := by
  rw [applyManualVelocity_x, applyManualVelocity_y]
  refine ⟨le_max_left _ _, max_le (by norm_num) (min_le_left _ _),
    le_max_left _ _, max_le (by norm_num) (min_le_left _ _)⟩

theorem arena_foldl : ∀ (cmds : List (ℝ × ℝ)) (p : Pose),
    (-10 ≤ p.x ∧ p.x ≤ 10 ∧ -10 ≤ p.y ∧ p.y ≤ 10) →
    (-10 ≤ (cmds.foldl (fun q c => applyManualVelocity q c.1 c.2) p).x ∧
      (cmds.foldl (fun q c => applyManualVelocity q c.1 c.2) p).x ≤ 10 ∧
      -10 ≤ (cmds.foldl (fun q c => applyManualVelocity q c.1 c.2) p).y ∧
      (cmds.foldl (fun q c => applyManualVelocity q c.1 c.2) p).y ≤ 10) := by
  intro cmds
  induction cmds with
  | nil => intro p hp; simpa using hp
  | cons c cs ih =>
    intro p _
    simp only [List.foldl_cons]
    exact ih _ (applyManualVelocity_mem_arena p c.1 c.2)

/-- C7.  Arena clamp invariant: applying any sequence of velocity commands
from the initial pose keeps `x, y` inside `[-10, 10] × [-10, 10]`, and each
integration step ends in the silent clamp
`max(-10, min(10, ·))` of `clampTurtlePoint` on both coordinates. -/
theorem spec_c7 :
    (∀ cmds : List (ℝ × ℝ),
      -10 ≤ (cmds.foldl (fun q c => applyManualVelocity q c.1 c.2) ⟨0, 0, 0⟩).x ∧
      (cmds.foldl (fun q c => applyManualVelocity q c.1 c.2) ⟨0, 0, 0⟩).x ≤ 10 ∧
      -10 ≤ (cmds.foldl (fun q c => applyManualVelocity q c.1 c.2) ⟨0, 0, 0⟩).y ∧
      (cmds.foldl (fun q c => applyManualVelocity q c.1 c.2) ⟨0, 0, 0⟩).y ≤ 10) ∧
    ∀ (pose : Pose) (l a : ℝ),
      (applyManualVelocity pose l a).x =
        max (-10) (min 10 (pose.x + l * Real.cos pose.theta)) ∧
      (applyManualVelocity pose l a).y =
        max (-10) (min 10 (pose.y + l * Real.sin pose.theta)) := by
  refine ⟨fun cmds => arena_foldl cmds ⟨0, 0, 0⟩ (by norm_num), fun pose l a =>
    ⟨applyManualVelocity_x pose l a, applyManualVelocity_y pose l a⟩⟩

theorem filterAux_sublist (minDist : ℝ) :
    ∀ (l : List (ℝ × ℝ × ℝ)) (last : ℝ × ℝ × ℝ),
      List.Sublist (filterAux minDist last l) l := by
  intro l
  induction l with
  | nil => intro last; simp [filterAux]
  | cons q qs ih =>
    intro last
    rw [filterAux]
    split
    · exact (ih q).cons₂ q
    · exact (ih last).cons q

theorem filterAux_chain (minDist : ℝ) :
    ∀ (l : List (ℝ × ℝ × ℝ)) (last : ℝ × ℝ × ℝ),
      List.Chain (fun a b => minDist ≤ hypot (b.1 - a.1) (b.2.1 - a.2.1))
        last (filterAux minDist last l) := by
  intro l
  induction l with
  | nil => intro last; exact List.Chain.nil
  | cons q qs ih =>
    intro last
    rw [filterAux]
    split
    · exact List.Chain.cons (by assumption) (ih q)
    · exact ih last

/-- C10.  `filterPathPoints` returns a sublist of its input that keeps the
first point of a non-empty input, in which each pair of consecutive output
points is at planar distance `≥ minDist`; the empty input yields `[]`. -/
theorem spec_c10 (p : ℝ × ℝ × ℝ) (rest : List (ℝ × ℝ × ℝ)) (minDist : ℝ) :
    filterPathPoints [] minDist = [] ∧
    (filterPathPoints (p :: rest) minDist).head? = some p ∧
    List.Sublist (filterPathPoints (p :: rest) minDist) (p :: rest) ∧
    List.Chain' (fun a b => minDist ≤ hypot (b.1 - a.1) (b.2.1 - a.2.1))
      (filterPathPoints (p :: rest) minDist) := by
  refine ⟨rfl, rfl, ?_, ?_⟩
  · exact (filterAux_sublist minDist rest p).cons₂ p
  · exact filterAux_chain minDist rest p

/-- C2.  Mission completion: a pose update within the 0.1 tolerance of the
single remaining waypoint nulls the mission (the terminal Completed state),
clears the armed interval, emits `missionComplete`, publishes the zero-twist
stop command, and afterwards neither the tick nor further pose updates do
anything.  For waypoints `[p]` this is the cursor advancing from 0 to 1. -/
theorem spec_c2 (s : ServerState) (m : MissionSt) (p : ℝ × ℝ) (t : ℕ)
    (msg : Pose)
    (hros : s.isROSInitialized = true)
    (hm : s.mission = some m) (hp : m.points = [p])
    (hint : s.missionInterval = some t)
    (harr : poseDist msg p < 0.1) :
    (handlePose s msg).mission = none ∧
    (handlePose s msg).timers = s.timers.erase t ∧
    (handlePose s msg).events = s.events ++ [Ev.missionComplete] ∧
    (handlePose s msg).published = s.published ++ [zeroTwist] ∧
    missionTick (handlePose s msg) = handlePose s msg ∧
    ∀ msg2 : Pose, handlePose (handlePose s msg) msg2 = handlePose s msg := by
  obtain ⟨ros, mis, mi, tm, pub, ev, nt⟩ := s
  replace hros : ros = true := hros
  replace hm : mis = some m := hm
  replace hint : mi = some t := hint
  subst hros hm hint
  obtain ⟨pts, cp⟩ := m
  replace hp : pts = [p] := hp
  subst hp
  have hstep : handlePose ⟨true, some ⟨[p], cp⟩, some t, tm, pub, ev, nt⟩ msg =
      ⟨true, none, some t, tm.erase t, pub ++ [zeroTwist],
        ev ++ [Ev.missionComplete], nt⟩ := by
    simp only [handlePose]
    rw [if_pos harr]
    rfl
  rw [hstep]
  exact ⟨rfl, rfl, rfl, rfl, rfl, fun _ => rfl⟩

/-- C2, witness: the concrete one-waypoint mission `[[1,0]]` completes on the
pose update `(1,0,0)`. -/
theorem spec_c2_witness :
    (handlePose ⟨true, some ⟨[(1, 0)], ⟨0, 0, 0⟩⟩, some 0, [0], [], [], 1⟩
        ⟨1, 0, 0⟩).mission = none ∧
    (handlePose ⟨true, some ⟨[(1, 0)], ⟨0, 0, 0⟩⟩, some 0, [0], [], [], 1⟩
        ⟨1, 0, 0⟩).timers = [] ∧
    (handlePose ⟨true, some ⟨[(1, 0)], ⟨0, 0, 0⟩⟩, some 0, [0], [], [], 1⟩
        ⟨1, 0, 0⟩).events = [Ev.missionComplete] ∧
    (handlePose ⟨true, some ⟨[(1, 0)], ⟨0, 0, 0⟩⟩, some 0, [0], [], [], 1⟩
        ⟨1, 0, 0⟩).published = [zeroTwist] := by
  have harr : poseDist ⟨1, 0, 0⟩ ((1 : ℝ), (0 : ℝ)) < 0.1 := by
    rw [poseDist, show ((1:ℝ) - 1) ^ 2 + ((0:ℝ) - 0) ^ 2 = 0 by norm_num,
      Real.sqrt_zero]
    norm_num
  obtain ⟨h1, h2, h3, h4, -, -⟩ :=
    spec_c2 ⟨true, some ⟨[(1, 0)], ⟨0, 0, 0⟩⟩, some 0, [0], [], [], 1⟩
      ⟨[(1, 0)], ⟨0, 0, 0⟩⟩ (1, 0) 0 ⟨1, 0, 0⟩ rfl rfl rfl rfl harr
  exact ⟨h1, by simpa using h2, by simpa using h3, by simpa using h4⟩

/-- C3 (code bug).  A start-mission request while a mission is Running is
NOT rejected: evaluated on a state whose mission `[(9,9)]` is Running with
interval 0 armed, the handler replaces the mission with the new waypoints
`[(5,5)]` and arms a second interval (id 1) without clearing the first, so
two timers are live.  The rejection check `if (currentMission)` at
`index.js:155` is dead code at module top level. -/
theorem spec_c3_bug :
    (handleStartMission ⟨true, some ⟨[(9, 9)], ⟨0, 0, 0⟩⟩, some 0, [0], [], [], 1⟩
        (some [(5, 5)])).mission = some ⟨[(5, 5)], ⟨0, 0, 0⟩⟩ ∧
    (handleStartMission ⟨true, some ⟨[(9, 9)], ⟨0, 0, 0⟩⟩, some 0, [0], [], [], 1⟩
        (some [(5, 5)])).timers = [0, 1] ∧
    (handleStartMission ⟨true, some ⟨[(9, 9)], ⟨0, 0, 0⟩⟩, some 0, [0], [], [], 1⟩
        (some [(5, 5)])).missionInterval = some 1 :=
  ⟨rfl, rfl, rfl⟩

/-- C4, counterexample: a start-mission request with an EMPTY waypoint list
is not rejected — on an idle initialized session it creates a mission object
and arms a tick timer, contradicting "no mission object is created, no tick
timer is armed". -/
theorem spec_c4_cex :
    (handleStartMission ⟨true, none, none, [], [], [], 0⟩ (some [])).mission =
      some ⟨[], ⟨0, 0, 0⟩⟩ ∧
    (handleStartMission ⟨true, none, none, [], [], [], 0⟩ (some [])).timers =
      [0] :=
  ⟨rfl, rfl⟩

/-- C4 (amended).  A malformed (non-array) waypoint payload is rejected with
no state change; an empty list is accepted — a mission object is created and
a tick armed — but the empty mission is inert: each tick publishes nothing,
and each pose update merely refreshes `currentPose`, publishing nothing,
emitting nothing and never throwing, so the session does not crash and the
agent is never commanded. -/
theorem spec_c4 (s : ServerState) (hros : s.isROSInitialized = true) :
    (∀ s2 : ServerState, handleStartMission s2 none = s2) ∧
    missionTick (handleStartMission s (some [])) =
      handleStartMission s (some []) ∧
    ∀ msg : Pose,
      (handlePose (handleStartMission s (some [])) msg).published =
        (handleStartMission s (some [])).published ∧
      (handlePose (handleStartMission s (some [])) msg).mission =
        some ⟨[], msg⟩ ∧
      (handlePose (handleStartMission s (some [])) msg).events =
        (handleStartMission s (some [])).events := by
  obtain ⟨ros, mis, mi, tm, pub, ev, nt⟩ := s
  replace hros : ros = true := hros
  subst hros
  exact ⟨fun _ => rfl, rfl, fun _ => ⟨rfl, rfl, rfl⟩⟩

/-- C4, witness: on the concrete idle session, the tick after starting an
empty mission changes nothing. -/
theorem spec_c4_witness :
    missionTick (handleStartMission ⟨true, none, none, [], [], [], 0⟩ (some [])) =
      handleStartMission ⟨true, none, none, [], [], [], 0⟩ (some []) :=
  (spec_c4 ⟨true, none, none, [], [], [], 0⟩ rfl).2.1

/-- C5, counterexample: with a mission Running, a manual-control command is
forwarded to the velocity publisher rather than ignored, and applying the
forwarded twist `(1, 0)` under the integration law changes the pose. -/
theorem spec_c5_cex :
    (handleTurtleControl ⟨true, some ⟨[(9, 9)], ⟨0, 0, 0⟩⟩, some 0, [0], [], [], 1⟩
        1 0).published = [⟨1, 0⟩] ∧
    applyManualVelocity ⟨0, 0, 0⟩ 1 0 ≠ (⟨0, 0, 0⟩ : Pose) := by
  refine ⟨rfl, fun h => ?_⟩
  have hx := congrArg Pose.x h
  rw [applyManualVelocity_x] at hx
  simp only at hx
  rw [Real.cos_zero, show (0:ℝ) + 1 * 1 = 1 by norm_num,
    min_eq_right (by norm_num : (1:ℝ) ≤ 10),
    max_eq_right (by norm_num : (-10:ℝ) ≤ 1)] at hx
  exact one_ne_zero hx

/-- C5 (amended).  The `turtleControl` handler enforces no mutual exclusion:
whenever ROS is initialized, the manual command is forwarded unchanged to
the velocity publisher regardless of whether a mission is Running (and can
therefore change the pose); it is dropped only while ROS is uninitialized. -/
theorem spec_c5 (s : ServerState) (lin ang : ℝ)
    (hros : s.isROSInitialized = true) :
    handleTurtleControl s lin ang =
      { s with published := s.published ++ [⟨lin, ang⟩] } := by
  obtain ⟨ros, mis, mi, tm, pub, ev, nt⟩ := s
  replace hros : ros = true := hros
  subst hros
  rfl

/-- C5, witness: the amended theorem evaluated on a concrete Running-mission
state. -/
theorem spec_c5_witness :
    handleTurtleControl ⟨true, some ⟨[(9, 9)], ⟨0, 0, 0⟩⟩, some 0, [0], [], [], 1⟩
        1 0 =
      ⟨true, some ⟨[(9, 9)], ⟨0, 0, 0⟩⟩, some 0, [0], [⟨1, 0⟩], [], 1⟩ :=
  spec_c5 ⟨true, some ⟨[(9, 9)], ⟨0, 0, 0⟩⟩, some 0, [0], [], [], 1⟩ 1 0 rfl

/-- C6.  Arrival monotonicity of the mission cursor (the count of consumed
waypoints): a pose update outside the 0.1 tolerance leaves the waypoint list
unchanged (cursor unchanged); one within tolerance drops exactly the head
waypoint (cursor +1), completing the mission when it was the last.  The
cursor never decreases: the points list never grows. -/
theorem spec_c6 (s : ServerState) (m : MissionSt) (p : ℝ × ℝ)
    (rest : List (ℝ × ℝ)) (msg : Pose)
    (hm : s.mission = some m) (hp : m.points = p :: rest) :
    (¬ poseDist msg p < 0.1 →
      (handlePose s msg).mission = some ⟨p :: rest, msg⟩) ∧
    (poseDist msg p < 0.1 → ∀ q qs, rest = q :: qs →
      (handlePose s msg).mission = some ⟨q :: qs, msg⟩) ∧
    (poseDist msg p < 0.1 → rest = [] →
      (handlePose s msg).mission = none) := by
  obtain ⟨ros, mis, mi, tm, pub, ev, nt⟩ := s
  replace hm : mis = some m := hm
  subst hm
  obtain ⟨pts, cp⟩ := m
  replace hp : pts = p :: rest := hp
  subst hp
  refine ⟨fun h => ?_, fun h q qs hq => ?_, fun h hq => ?_⟩
  · simp only [handlePose]
    rw [if_neg h]
  · subst hq
    simp only [handlePose]
    rw [if_pos h]
  · subst hq
    simp only [handlePose]
    rw [if_pos h]
    cases ros <;> rfl

/-- C6, witness: the concrete mission `[(5,5)]` has its cursor advanced by
exactly one (to completion) by the arriving pose update `(5,5,0)`. -/
theorem spec_c6_witness :
    (handlePose ⟨true, some ⟨[(5, 5)], ⟨0, 0, 0⟩⟩, some 0, [0], [], [], 1⟩
        ⟨5, 5, 0⟩).mission = none := by
  have harr : poseDist ⟨5, 5, 0⟩ ((5 : ℝ), (5 : ℝ)) < 0.1 := by
    rw [poseDist, show ((5:ℝ) - 5) ^ 2 + ((5:ℝ) - 5) ^ 2 = 0 by norm_num,
      Real.sqrt_zero]
    norm_num
  exact (spec_c6 ⟨true, some ⟨[(5, 5)], ⟨0, 0, 0⟩⟩, some 0, [0], [], [], 1⟩
    ⟨[(5, 5)], ⟨0, 0, 0⟩⟩ (5, 5) [] ⟨5, 5, 0⟩ rfl rfl).2.2 harr rfl

/-- C8.  Idempotent stop: on a session with no active mission and no armed
interval the stop handler only appends the zero-twist publish and the
`missionStopped` event — and the zero twist moves no in-arena pose; with an
armed mission it clears the interval, nulls the mission and zeroes
velocity. -/
theorem spec_c8 (s : ServerState) (hros : s.isROSInitialized = true) :
    ((s.mission = none ∧ s.missionInterval = none) →
      handleStopMission s =
        { s with published := s.published ++ [zeroTwist],
                 events := s.events ++ [Ev.missionStopped] }) ∧
    (handleStopMission s).mission = none ∧
    (∀ t, s.missionInterval = some t →
      (handleStopMission s).timers = s.timers.erase t ∧
      (handleStopMission s).missionInterval = none) ∧
    (handleStopMission s).published = s.published ++ [zeroTwist] ∧
    ∀ pose : Pose, -10 ≤ pose.x → pose.x ≤ 10 → -10 ≤ pose.y → pose.y ≤ 10 →
      applyManualVelocity pose 0 0 = pose := by
  obtain ⟨ros, mis, mi, tm, pub, ev, nt⟩ := s
  replace hros : ros = true := hros
  subst hros
  refine ⟨?_, ?_, ?_, ?_, ?_⟩
  · rintro ⟨hm, hi⟩
    replace hm : mis = none := hm
    replace hi : mi = none := hi
    subst hm hi
    rfl
  · cases mi <;> rfl
  · intro t ht
    replace ht : mi = some t := ht
    subst ht
    exact ⟨rfl, rfl⟩
  · cases mi <;> rfl
  · intro pose hx1 hx2 hy1 hy2
    ext
    · rw [applyManualVelocity_x, zero_mul, add_zero, min_eq_right hx2,
        max_eq_right hx1]
    · rw [applyManualVelocity_y, zero_mul, add_zero, min_eq_right hy2,
        max_eq_right hy1]
    · show pose.theta + 0 = pose.theta
      rw [add_zero]

/-- C8, witness: stopping a session that never started a mission appends
only the zero twist and the stop event. -/
theorem spec_c8_witness :
    handleStopMission ⟨true, none, none, [], [], [], 0⟩ =
      ⟨true, none, none, [], [zeroTwist], [Ev.missionStopped], 0⟩ :=
  (spec_c8 ⟨true, none, none, [], [], [], 0⟩ rfl).1 ⟨rfl, rfl⟩

end TurtleSim
